import Mathlib

/-!
Verification of the heuristic resume text-extraction pipeline
(`src/lib/fileProcessor.ts`).  The JavaScript/TypeScript functions are
shallowly embedded as executable Lean definitions operating on `String`
(character lists).  Machine strings are modelled as Lean `String`s; the
JS regular expressions used by the pipeline are hand-compiled into
backtracking matchers with the exact leftmost/greedy semantics of the
source patterns.  Entry identifiers (`uuidv4()`) are modelled by an
identifier stream `Nat → String` consumed in generation order.
-/

/-- JS whitespace (the characters relevant to `trim` and `\s`):
space, tab, line feed, carriage return, vertical tab, form feed and
no-break space. -/
def isJsSpace (c : Char) : Bool :=
  c == ' ' || c == '\t' || c == '\n' || c == '\r' || c == '\x0b' ||
  c == '\x0c' || c == ' '

/-- JS `String.prototype.trim`. -/
def jsTrim (s : String) : String :=
  String.mk (((s.data.dropWhile isJsSpace).reverse.dropWhile isJsSpace).reverse)

/-- JS `String.prototype.toLowerCase` (ASCII range, which is all the
pipeline's keywords use). -/
def jsToLower (s : String) : String :=
  String.mk (s.data.map Char.toLower)

/-- Pattern is a prefix of the text (character-exact). -/
def matchesAt : List Char → List Char → Bool
  | [], _ => true
  | _ :: _, [] => false
  | p :: ps, c :: cs => p == c && matchesAt ps cs

/-- Pattern occurs somewhere in the text. -/
def hasSub (pat : List Char) : List Char → Bool
  | [] => matchesAt pat []
  | c :: rest => matchesAt pat (c :: rest) || hasSub pat rest

/-- JS `s.includes(pat)`. -/
def strIncludes (s pat : String) : Bool :=
  hasSub pat.data s.data

/-- JS `\w` (word character): ASCII alphanumeric or underscore. -/
def isWordChar (c : Char) : Bool :=
  c.isAlphanum || c == '_'

/-- All matches of the global year regex `\b(19|20)\d{2}\b`, scanning
left to right and resuming after each match, exactly as
`line.match(dateRegex)` does with the `g` flag.  The boolean argument
records whether the previous character was a word character (for the
`\b` tests). -/
def yearScan : Bool → List Char → List String
  | _, [] => []
  | prevWord, a :: b :: c :: d :: rest2 =>
    if !prevWord && ((a == '1' && b == '9') || (a == '2' && b == '0')) &&
        c.isDigit && d.isDigit &&
        (match rest2 with | [] => true | e :: _ => !(isWordChar e)) then
      String.mk [a, b, c, d] :: yearScan true rest2
    else
      yearScan (isWordChar a) (b :: c :: d :: rest2)
  | _, a :: rest => yearScan (isWordChar a) rest

/-- `line.match(/\b(19|20)\d{2}\b/g)`, with `null` and `[]` identified
(the JS code only tests `dates && dates.length >= 1` and indexes 0/1). -/
def yearTokens (s : String) : List String :=
  yearScan false s.data

/-- `line.split(/\d/)[0]`: the part of the line before its first ASCII
digit. -/
def beforeFirstDigit (s : String) : String :=
  String.mk (s.data.takeWhile (fun c => !c.isDigit))

/-- `name.replace(/[^\w\s]/gi, '')`: keep only word characters and
whitespace. -/
def stripNonWordSpace (s : String) : String :=
  String.mk (s.data.filter (fun c => isWordChar c || isJsSpace c))

/-- Characters kept by `phone.replace(/[^\d+()-.\s]/g, '')`.  Inside the
class, `)-.` is the codepoint range 0x29–0x2E, so the kept characters
are digits, `+`, `(`, the range `)*+,-.` and whitespace. -/
def phoneCharKeep (c : Char) : Bool :=
  c.isDigit || c == '+' || c == '(' || (')' ≤ c && c ≤ '.') || isJsSpace c

/-- `phone.replace(/[^\d+()-.\s]/g, '')`. -/
def stripPhoneChars (s : String) : String :=
  String.mk (s.data.filter phoneCharKeep)

/-- JS `line.split('\n')` on the character list (splitting on every
line-feed character, keeping empty pieces). -/
def splitLinesAux : List Char → List (List Char)
  | [] => [[]]
  | c :: rest =>
    let r := splitLinesAux rest
    if c == '\n' then [] :: r
    else
      match r with
      | [] => [[c]]
      | h :: t => (c :: h) :: t

/-- `text.split('\n').map(l => l.trim()).filter(l => l.length > 0)`
from `extractDataFromText`. -/
def linesOf (text : String) : List String :=
  ((splitLinesAux text.data).map (fun cs => jsTrim (String.mk cs))).filter
    (fun l => 0 < l.data.length)

/- ## Hand-compiled regular-expression matchers for `extractPersonalInfo` -/

/-- Length of the maximal run of characters satisfying `p` at the head
of the list (the greedy consumption of a character class). -/
def runLen (p : Char → Bool) : List Char → Nat
  | [] => 0
  | c :: rest => if p c then runLen p rest + 1 else 0

/-- Whether the head of the list is a word character (end of input
counts as a non-word position for `\b`). -/
def headIsWord : List Char → Bool
  | [] => false
  | c :: _ => isWordChar c

/-- Character class `[A-Za-z0-9._%+-]` of the email regex. -/
def localChar (c : Char) : Bool :=
  c.isAlphanum || c == '.' || c == '_' || c == '%' || c == '+' || c == '-'

/-- Character class `[A-Za-z0-9.-]` of the email regex. -/
def domainChar (c : Char) : Bool :=
  c.isAlphanum || c == '.' || c == '-'

/-- Character class `[A-Z|a-z]` of the email regex (the literal `|`
inside the class is a class member). -/
def tldChar (c : Char) : Bool :=
  c.isAlpha || c == '|'

/-- Backtracking for `[A-Z|a-z]{2,}\b` after the final dot: `u` is the
input, the `Nat` argument the candidate (greedy-first) length.  Accepts
the longest length `≥ 2` whose following position is a word boundary. -/
def tldSearch (u : List Char) : Nat → Option Nat
  | 0 => none
  | j + 1 =>
    if j + 1 < 2 then none
    else if headIsWord (u.drop j) != headIsWord (u.drop (j + 1)) then some (j + 1)
    else tldSearch u j

/-- Backtracking for `[A-Za-z0-9.-]+\.` followed by the top-level-domain
part: `t` is the input after `@`, the `Nat` argument the candidate
(greedy-first) length of the `+` part.  Returns the total length
consumed after the `@`. -/
def domainSearch (t : List Char) : Nat → Option Nat
  | 0 => none
  | k + 1 =>
    (match t.drop (k + 1) with
     | '.' :: u =>
       (tldSearch u (runLen tldChar u)).map (fun j => (k + 1) + 1 + j)
     | _ => none).orElse
      (fun _ => domainSearch t k)

/-- One attempt of `\b[A-Za-z0-9._%+-]+@[A-Za-z0-9.-]+\.[A-Z|a-z]{2,}\b`
at the current position; `prevWord` tells whether the preceding
character was a word character.  Returns the match length.  The local
part needs no backtracking because `@` is not in its class. -/
def emailMatchAt (prevWord : Bool) (l : List Char) : Option Nat :=
  let r := runLen localChar l
  if r == 0 then none
  else if prevWord == headIsWord l then none
  else
    match l.drop r with
    | '@' :: t =>
      (domainSearch t (runLen domainChar t)).map (fun d => r + 1 + d)
    | _ => none

/-- Leftmost email match: try every start position from the left. -/
def emailScan : Bool → List Char → Option (List Char)
  | _, [] => none
  | prevWord, c :: rest =>
    match emailMatchAt prevWord (c :: rest) with
    | some n => some ((c :: rest).take n)
    | none => emailScan (isWordChar c) rest

/-- `fullText.match(emailRegex)?.[0]`. -/
def emailFirstMatch (s : String) : Option String :=
  (emailScan false s.data).map String.mk

/-- Character class `[-.\s]` of the phone regex. -/
def isSepChar (c : Char) : Bool :=
  c == '-' || c == '.' || isJsSpace c

/-- Consume exactly `n` ASCII digits. -/
def eatDigits : Nat → List Char → Option (List Char)
  | 0, l => some l
  | _ + 1, [] => none
  | n + 1, c :: rest => if c.isDigit then eatDigits n rest else none

/-- Consume one optional character satisfying `p` (greedy), returning
how many characters were taken. -/
def eatOpt (p : Char → Bool) : List Char → Nat × List Char
  | [] => (0, [])
  | c :: rest => if p c then (1, rest) else (0, c :: rest)

/-- `\(?([0-9]{3})\)?[-.\s]?([0-9]{3})[-.\s]?([0-9]{4})`, the part of
the phone regex after the optional country-code group.  Each optional
element here is decided greedily; skipping it can never rescue a failed
attempt because none of the optional characters can begin the following
required digit run, so this equals the backtracking semantics. -/
def phoneRestMatch (l : List Char) : Option Nat :=
  let p1 := eatOpt (fun c => c == '(') l
  match eatDigits 3 p1.2 with
  | none => none
  | some l2 =>
    let p2 := eatOpt (fun c => c == ')') l2
    let p3 := eatOpt isSepChar p2.2
    match eatDigits 3 p3.2 with
    | none => none
    | some l5 =>
      let p4 := eatOpt isSepChar l5
      match eatDigits 4 p4.2 with
      | none => none
      | some _ => some (p1.1 + 3 + p2.1 + p3.1 + 3 + p4.1 + 4)

/-- One attempt of the phone regex
`(\+?1[-.\s]?)?\(?([0-9]{3})\)?[-.\s]?([0-9]{3})[-.\s]?([0-9]{4})` at
the current position.  The optional group's alternatives are tried in
backtracking order: `+1` with separator, `+1`, `1` with separator, `1`,
then group absent. -/
def phoneMatchAt (l : List Char) : Option Nat :=
  (match l with
   | '+' :: '1' :: rest =>
     (match rest with
      | s :: r2 =>
        if isSepChar s then (phoneRestMatch r2).map (fun n => n + 3) else none
      | [] => none).orElse
       (fun _ => (phoneRestMatch rest).map (fun n => n + 2))
   | _ => none).orElse
   (fun _ =>
    (match l with
     | '1' :: rest =>
       (match rest with
        | s :: r2 =>
          if isSepChar s then (phoneRestMatch r2).map (fun n => n + 2) else none
        | [] => none).orElse
         (fun _ => (phoneRestMatch rest).map (fun n => n + 1))
     | _ => none).orElse
     (fun _ => phoneRestMatch l))

/-- Leftmost phone match. -/
def phoneScan : List Char → Option (List Char)
  | [] => none
  | c :: rest =>
    match phoneMatchAt (c :: rest) with
    | some n => some ((c :: rest).take n)
    | none => phoneScan rest

/-- `fullText.match(phoneRegex)?.[0]`. -/
def phoneFirstMatch (s : String) : Option String :=
  (phoneScan s.data).map String.mk

/-- Case-insensitive prefix match (the `/i` flag). -/
def matchesAtCI : List Char → List Char → Bool
  | [], _ => true
  | _ :: _, [] => false
  | p :: ps, c :: cs => p.toLower == c.toLower && matchesAtCI ps cs

/-- One attempt of `/linkedin\.com\/in\/([a-zA-Z0-9-]+)/i` at the
current position. -/
def linkedinMatchAt (l : List Char) : Option Nat :=
  let pat := "linkedin.com/in/".data
  if matchesAtCI pat l then
    let j := runLen (fun c => c.isAlphanum || c == '-') (l.drop pat.length)
    if j == 0 then none else some (pat.length + j)
  else none

/-- Leftmost LinkedIn match (the matched text keeps its original
casing, as JS `match` returns the input slice). -/
def linkedinScan : List Char → Option (List Char)
  | [] => none
  | c :: rest =>
    match linkedinMatchAt (c :: rest) with
    | some n => some ((c :: rest).take n)
    | none => linkedinScan rest

/-- `fullText.match(linkedinRegex)?.[0]`. -/
def linkedinFirstMatch (s : String) : Option String :=
  (linkedinScan s.data).map String.mk

/- ## Data model (`@/types` as constructed by `fileProcessor.ts`) -/

/-- `PersonalInfo` as built by `extractPersonalInfo`. -/
structure PersonalInfo where
  name : String
  email : String
  phone : String
  address : String
  linkedin : String
  website : String
deriving Repr, DecidableEq

/-- `Experience` entries as built by `extractExperience`.  `endDate` is
`string | null` in the source (`dates[1] || null`). -/
structure Experience where
  id : String
  company : String
  position : String
  startDate : String
  endDate : Option String
  description : String
  achievements : List String
deriving Repr, DecidableEq

/-- The `Partial<Experience>` object literal the scanner keeps in
`currentExperience` (it never carries an `id`; the id is generated when
the entry is pushed). -/
structure PendingExperience where
  company : String
  position : String
  startDate : String
  endDate : Option String
  description : String
  achievements : List String
deriving Repr, DecidableEq

/-- `Skill` entries as built by `extractSkills`. -/
structure Skill where
  name : String
  level : String
  category : String
deriving Repr, DecidableEq

/-- `Education` entries as built by `extractEducation`.  `gpa` is an
optional numeric field that the extractor always leaves `undefined`
(its payload type is irrelevant here, so it is modelled with `Nat`). -/
structure Education where
  id : String
  institution : String
  degree : String
  field : String
  startDate : String
  endDate : String
  gpa : Option Nat
deriving Repr, DecidableEq

/-- The aggregate returned by `extractDataFromText`. -/
structure ExtractedData where
  personal_info : PersonalInfo
  experience : List Experience
  skills : List Skill
  education : List Education
deriving Repr, DecidableEq

/- ## `extractPersonalInfo` -/

/-- `extractPersonalInfo(lines, fullText)`: independent regex matches
against the entire text, name from the first line. -/
def extractPersonalInfo (lines : List String) (fullText : String) : PersonalInfo :=
  { name := jsTrim (stripNonWordSpace (lines.headD ""))
    email := (emailFirstMatch fullText).getD ""
    phone := stripPhoneChars ((phoneFirstMatch fullText).getD "")
    address := ""
    linkedin := (linkedinFirstMatch fullText).getD ""
    website := "" }

/- ## `extractExperience` -/

/-- `experienceKeywords`. -/
def experienceKeywords : List String :=
  ["experience", "work history", "employment", "professional experience"]

/-- The `currentExperience` object literal built from a qualifying
line: company is the text before the first digit (trimmed), dates are
the first and optional second year token. -/
def mkPendingExp (rawLine : String) : PendingExperience :=
  { company := jsTrim (beforeFirstDigit rawLine)
    position := ""
    startDate := (yearTokens rawLine).headD ""
    endDate := (yearTokens rawLine).get? 1
    description := ""
    achievements := [] }

/-- Pushing a finished entry: `experiences.push({id: uuidv4(), ...})`.
The `|| ''` / `|| null` / `|| []` defaults in the push are identities
for the values a pending entry can hold, so this is a plain copy plus
the generated id. -/
def finalizeExp (g : Nat → String) (k : Nat) (p : PendingExperience) : Experience :=
  { id := g k
    company := p.company
    position := p.position
    startDate := p.startDate
    endDate := p.endDate
    description := p.description
    achievements := p.achievements }

/-- The `if (currentExperience) { push }` epilogue (also reached via
`break`). -/
def expFlush (g : Nat → String) (k : Nat) : Option PendingExperience → List Experience
  | none => []
  | some p => [finalizeExp g k p]

/-- The scanning loop of `extractExperience`: `g` is the uuid stream,
`k` the next uuid index, then the `inExperienceSection` flag, the
`currentExperience` slot and the remaining lines. -/
def expLoop (g : Nat → String) : Nat → Bool → Option PendingExperience → List String → List Experience
  | k, _, pending, [] => expFlush g k pending
  | k, inSec, pending, l :: rest =>
    if experienceKeywords.any (fun kw => strIncludes (jsToLower l) kw) then
      expLoop g k true pending rest
    else if inSec then
      if strIncludes (jsToLower l) "education" || strIncludes (jsToLower l) "skills" ||
          strIncludes (jsToLower l) "projects" then
        expFlush g k pending
      else if 1 ≤ (yearTokens l).length then
        match pending with
        | some p => finalizeExp g k p :: expLoop g (k + 1) true (some (mkPendingExp l)) rest
        | none => expLoop g k true (some (mkPendingExp l)) rest
      else expLoop g k true pending rest
    else expLoop g k false pending rest

/-- `extractExperience(lines, fullText)` (the `fullText` parameter is
unused in the source as well). -/
def extractExperience (g : Nat → String) (lines : List String) (_fullText : String) : List Experience :=
  expLoop g 0 false none lines

/- ## `extractSkills` -/

/-- `skillKeywords`. -/
def skillKeywords : List String :=
  ["skills", "technical skills", "core competencies", "technologies"]

/-- `commonSkills`, the fixed vocabulary. -/
def commonSkills : List String :=
  ["javascript", "python", "java", "react", "node.js", "sql", "html", "css",
   "project management", "leadership", "communication", "teamwork", "problem solving"]

/-- The `skills.push({...})` literal for one matched vocabulary term. -/
def skillOfTerm (term : String) : Skill :=
  { name := term
    level := "intermediate"
    category :=
      if strIncludes term "javascript" || strIncludes term "python" then "Programming"
      else "General" }

/-- The `commonSkills.forEach` body applied to one (lower-cased) line:
one entry per vocabulary term contained in the line, in vocabulary
order. -/
def skillsOfLine (line : String) : List Skill :=
  (commonSkills.filter (fun s => strIncludes line s)).map skillOfTerm

/-- The scanning loop of `extractSkills`. -/
def skillsLoop : Bool → List String → List Skill
  | _, [] => []
  | inSec, l :: rest =>
    if skillKeywords.any (fun kw => strIncludes (jsToLower l) kw) then
      skillsLoop true rest
    else if inSec then
      if strIncludes (jsToLower l) "experience" || strIncludes (jsToLower l) "education" ||
          strIncludes (jsToLower l) "projects" then
        []
      else skillsOfLine (jsToLower l) ++ skillsLoop true rest
    else skillsLoop false rest

/-- `extractSkills(lines, fullText)`. -/
def extractSkills (lines : List String) (_fullText : String) : List Skill :=
  skillsLoop false lines

/- ## `extractEducation` -/

/-- `educationKeywords`. -/
def educationKeywords : List String :=
  ["education", "academic background", "qualifications"]

/-- `degreeKeywords`. -/
def degreeKeywords : List String :=
  ["bachelor", "master", "phd", "degree", "diploma", "certificate"]

/-- The `education.push({...})` literal for one qualifying line.  Note
the source stores `degree: line` where `line` is the lower-cased copy
of `lines[i]`, while the year tokens are taken from the original
`lines[i]`. -/
def mkEducation (g : Nat → String) (k : Nat) (rawLine : String) : Education :=
  { id := g k
    institution := ""
    degree := jsToLower rawLine
    field := ""
    startDate := (yearTokens rawLine).headD ""
    endDate := ((yearTokens rawLine).get? 1).getD ((yearTokens rawLine).headD "")
    gpa := none }

/-- The scanning loop of `extractEducation`. -/
def eduLoop (g : Nat → String) : Nat → Bool → List String → List Education
  | _, _, [] => []
  | k, inSec, l :: rest =>
    if educationKeywords.any (fun kw => strIncludes (jsToLower l) kw) then
      eduLoop g k true rest
    else if inSec then
      if strIncludes (jsToLower l) "experience" || strIncludes (jsToLower l) "skills" ||
          strIncludes (jsToLower l) "projects" then
        []
      else if degreeKeywords.any (fun kw => strIncludes (jsToLower l) kw) then
        mkEducation g k l :: eduLoop g (k + 1) true rest
      else eduLoop g k true rest
    else eduLoop g k false rest

/-- `extractEducation(lines, fullText)`. -/
def extractEducation (g : Nat → String) (lines : List String) (_fullText : String) : List Education :=
  eduLoop g 0 false lines

/- ## `extractDataFromText` and `parseResumeFile` -/

/-- `extractDataFromText(text)`: split into trimmed non-empty lines and
run the four independent extractors.  `gExp` and `gEdu` are the uuid
streams consumed by the experience and education extractors. -/
def extractDataFromText (gExp gEdu : Nat → String) (text : String) : ExtractedData :=
  { personal_info := extractPersonalInfo (linesOf text) text
    experience := extractExperience gExp (linesOf text) text
    skills := extractSkills (linesOf text) text
    education := extractEducation gEdu (linesOf text) text }

/-- `parseResumeFile(buffer, mimetype)`.  The external decoders
(`pdf-parse` and `mammoth`) are parameters returning `some text` on
success and `none` when they raise.  The whole dispatch runs inside a
single `try` block whose `catch` replaces every error — including the
`throw new Error('Unsupported file type')` — with
`Error('Failed to parse resume file')`. -/
def parseResumeFile (pdfDecode mammothDecode : List Nat → Option String)
    (buffer : List Nat) (mimetype : String) : Except String String :=
  let body : Except String String :=
    if mimetype = "application/pdf" then
      match pdfDecode buffer with
      | some t => .ok t
      | none => .error "decoder error"
    else if mimetype = "application/vnd.openxmlformats-officedocument.wordprocessingml.document" then
      match mammothDecode buffer with
      | some t => .ok t
      | none => .error "decoder error"
    else if mimetype = "application/msword" then
      match mammothDecode buffer with
      | some t => .ok t
      | none => .error "decoder error"
    else
      .error "Unsupported file type"
  match body with
  | .ok t => .ok t
  | .error _ => .error "Failed to parse resume file"

/-- A concrete identifier stream for closed sample computations. -/
def sampleIds (n : Nat) : String :=
  toString n

/-- The name transformation exactly as the specification words it:
every character that is neither alphanumeric nor whitespace is
stripped (spec-following definition, for comparison with the code's
`[^\w\s]` filter, which also keeps underscores and then trims). -/
def specClaimedName (line : String) : String :=
  String.mk (line.data.filter (fun c => c.isAlphanum || isJsSpace c))

/-- Erase the generated identifier of an experience entry. -/
def eraseExpId (e : Experience) : Experience :=
  { e with id := "" }

/-- Erase the generated identifier of an education entry. -/
def eraseEduId (e : Education) : Education :=
  { e with id := "" }

/-- Erase all generated identifiers of an extraction result. -/
def eraseIds (d : ExtractedData) : ExtractedData :=
  { d with
    experience := d.experience.map eraseExpId
    education := d.education.map eraseEduId }

/-- A line containing any recognized section-header keyword (of any of
the three section scans). -/
def hasAnyHeader (l : String) : Bool :=
  ((experienceKeywords ++ skillKeywords) ++ educationKeywords).any
    (fun kw => strIncludes (jsToLower l) kw)

/- ## Claim theorems -/

/-- C1: the code throws the generic `Failed to parse resume file` error
for an unsupported media type, exactly the same error it throws when a
decoder raises, because the `Unsupported file type` throw sits inside
the `try` block and is remapped by the `catch`.  The two failure modes
are therefore not distinguishable, contradicting the claim (and the
repository's own test, which expects `Unsupported file type` to
surface). -/
theorem c1_error_collapse :
    (∀ pdfDecode mammothDecode buffer,
       parseResumeFile pdfDecode mammothDecode buffer "text/plain" =
         Except.error "Failed to parse resume file")
    ∧ (∀ mammothDecode buffer,
       parseResumeFile (fun _ => none) mammothDecode buffer "application/pdf" =
         Except.error "Failed to parse resume file") := by
  constructor <;> intros <;> rfl

/-- C2 counterexample: inside the experience section, the line
`more experience education` contains the keyword `education`, yet the
scan does not terminate there — the later line `Job 2021` still
produces an entry (company `Job`), because the line also contains the
experience header keyword and is skipped by the header test before the
termination test runs. -/
theorem c2_counterexample :
    strIncludes (jsToLower "more experience education") "education" = true
    ∧ (extractExperience sampleIds
        ["Experience", "Dev 2020", "more experience education", "Job 2021"] "").map
        Experience.company = ["Dev", "Job"] :=
  ⟨rfl, rfl⟩

/-- C2 (amended): once inside the experience section, a line containing
`education`, `skills` or `projects` that does not also contain an
experience header keyword immediately terminates the scan: the result
is just the flush of the already-pending entry, independent of that
line and of every later line. -/
theorem c2_terminator_stops_scan (g : Nat → String) (k : Nat)
    (pending : Option PendingExperience) (l : String) (rest : List String)
    (hhead : experienceKeywords.any (fun kw => strIncludes (jsToLower l) kw) = false)
    (hterm : (strIncludes (jsToLower l) "education" || strIncludes (jsToLower l) "skills" ||
              strIncludes (jsToLower l) "projects") = true) :
    expLoop g k true pending (l :: rest) = expFlush g k pending := by
  simp [expLoop, hhead, hterm]

/-- Witness for the amended C2 at a concrete input. -/
theorem c2_terminator_stops_scan_witness :
    expLoop sampleIds 0 true none ["education", "X 2020"] = expFlush sampleIds 0 none :=
  c2_terminator_stops_scan sampleIds 0 none "education" ["X 2020"] (by decide) (by decide)

/-- C3 counterexample: the entry produced for the line
`Bachelor of Computer Science 2016-2020` carries the lower-cased line
as its `degree`, not the raw line verbatim (the source stores the
lower-cased scan copy `line`, not `lines[i]`). -/
theorem c3_counterexample :
    (extractEducation sampleIds
        ["Education", "Bachelor of Computer Science 2016-2020"] "").map Education.degree =
      ["bachelor of computer science 2016-2020"]
    ∧ ("bachelor of computer science 2016-2020" : String) ≠
        "Bachelor of Computer Science 2016-2020" :=
  ⟨rfl, by decide⟩

/-- C3 (amended): every line scanned inside the education section
(i.e. one containing no education header keyword and no terminating
section keyword) that contains a degree keyword produces exactly one
entry whose `degree` is the lower-cased line, whose `startDate` is the
first year token and whose `endDate` is the second year token (or the
first when only one is present); the spec's example line yields exactly
one entry with degree `bachelor of computer science 2016-2020`,
startDate `2016`, endDate `2020`. -/
theorem c3_education_entries :
    (∀ (g : Nat → String) (k : Nat) (l : String) (rest : List String),
        educationKeywords.any (fun kw => strIncludes (jsToLower l) kw) = false →
        (strIncludes (jsToLower l) "experience" || strIncludes (jsToLower l) "skills" ||
         strIncludes (jsToLower l) "projects") = false →
        degreeKeywords.any (fun kw => strIncludes (jsToLower l) kw) = true →
        eduLoop g k true (l :: rest) = mkEducation g k l :: eduLoop g (k + 1) true rest)
    ∧ (∀ g k l, (mkEducation g k l).degree = jsToLower l
        ∧ (mkEducation g k l).startDate = (yearTokens l).headD ""
        ∧ (mkEducation g k l).endDate = ((yearTokens l).get? 1).getD ((yearTokens l).headD ""))
    ∧ (∀ g : Nat → String,
        extractEducation g ["Education", "Bachelor of Computer Science 2016-2020"] "" =
          [{ id := g 0, institution := "",
             degree := "bachelor of computer science 2016-2020", field := "",
             startDate := "2016", endDate := "2020", gpa := none }]) := by
  refine ⟨?_, ?_, ?_⟩
  · intro g k l rest hhead hterm hdeg
    simp [eduLoop, hhead, hterm, hdeg]
  · intro g k l
    exact ⟨rfl, rfl, rfl⟩
  · intro g
    rfl

/-- Witness for the amended C3 at a concrete input. -/
theorem c3_education_entries_witness :
    eduLoop sampleIds 0 true ["Bachelor 2016"] =
      mkEducation sampleIds 0 "Bachelor 2016" :: eduLoop sampleIds 1 true [] :=
  c3_education_entries.1 sampleIds 0 "Bachelor 2016" [] (by decide) (by decide) (by decide)

/-- C4: a qualifying line (one with at least one year token) scanned
inside the experience section finalizes the pending entry, if any, and
starts a new pending entry whose company is the text before the line's
first digit (trimmed), whose startDate is the first year token, whose
endDate is the second year token or `null`, and whose
position/description/achievements are empty; entries appear in input
order, and the spec's two-line example yields exactly two entries. -/
theorem c4_experience_entries :
    (∀ (g : Nat → String) (k : Nat) (p : PendingExperience) (l : String) (rest : List String),
        experienceKeywords.any (fun kw => strIncludes (jsToLower l) kw) = false →
        (strIncludes (jsToLower l) "education" || strIncludes (jsToLower l) "skills" ||
         strIncludes (jsToLower l) "projects") = false →
        yearTokens l ≠ [] →
        expLoop g k true (some p) (l :: rest) =
          finalizeExp g k p :: expLoop g (k + 1) true (some (mkPendingExp l)) rest
        ∧ expLoop g k true none (l :: rest) = expLoop g k true (some (mkPendingExp l)) rest)
    ∧ (∀ l, (mkPendingExp l).company = jsTrim (beforeFirstDigit l)
        ∧ (mkPendingExp l).startDate = (yearTokens l).headD ""
        ∧ (mkPendingExp l).endDate = (yearTokens l).get? 1
        ∧ (mkPendingExp l).position = "" ∧ (mkPendingExp l).description = ""
        ∧ (mkPendingExp l).achievements = ([] : List String))
    ∧ (∀ g : Nat → String,
        extractExperience g
          ["Experience", "Software Engineer at Tech Corp 2020-2023",
           "Senior Developer at StartupXYZ 2018-2020"] "" =
          [{ id := g 0, company := "Software Engineer at Tech Corp", position := "",
             startDate := "2020", endDate := some "2023", description := "",
             achievements := [] },
           { id := g 1, company := "Senior Developer at StartupXYZ", position := "",
             startDate := "2018", endDate := some "2020", description := "",
             achievements := [] }]) := by
  refine ⟨?_, ?_, ?_⟩
  · intro g k p l rest hhead hterm hyears
    have hlen : 1 ≤ (yearTokens l).length := List.length_pos.mpr hyears
    constructor <;> simp [expLoop, hhead, hterm, hlen]
  · intro l
    exact ⟨rfl, rfl, rfl, rfl, rfl, rfl⟩
  · intro g
    rfl

/-- Witness for C4 at a concrete input. -/
theorem c4_experience_entries_witness :
    expLoop sampleIds 0 true (some (mkPendingExp "A 2001")) ["B 2002"] =
      finalizeExp sampleIds 0 (mkPendingExp "A 2001") ::
        expLoop sampleIds 1 true (some (mkPendingExp "B 2002")) [] :=
  (c4_experience_entries.1 sampleIds 0 (mkPendingExp "A 2001") "B 2002" []
    (by decide) (by decide) (by decide)).1

/-- C5 counterexample: for the one-line document `John_Doe`, the code
keeps the underscore in the name (its `[^\w\s]` filter keeps word
characters, which include `_`), while the claim's wording — strip all
non-alphanumeric/non-whitespace characters — would delete it. -/
theorem c5_counterexample :
    (extractDataFromText sampleIds sampleIds "John_Doe").personal_info.name = "John_Doe"
    ∧ specClaimedName "John_Doe" = "JohnDoe"
    ∧ ("John_Doe" : String) ≠ "JohnDoe" :=
  ⟨rfl, rfl, by decide⟩

/-- C5 (amended): the personal-info extractor matches the email, phone
and LinkedIn regexes against the entire joined text (not per-line),
takes the name unconditionally as the first non-empty line with every
character other than word characters (letters, digits, underscore) and
whitespace removed and the result trimmed, and never fails: every field
without a match is the empty string. -/
theorem c5_personal_info (lines : List String) (fullText : String) :
    (extractPersonalInfo lines fullText).email = (emailFirstMatch fullText).getD ""
    ∧ (extractPersonalInfo lines fullText).phone =
        stripPhoneChars ((phoneFirstMatch fullText).getD "")
    ∧ (extractPersonalInfo lines fullText).linkedin = (linkedinFirstMatch fullText).getD ""
    ∧ (extractPersonalInfo lines fullText).name = jsTrim (stripNonWordSpace (lines.headD ""))
    ∧ (extractPersonalInfo lines fullText).address = ""
    ∧ (extractPersonalInfo lines fullText).website = ""
    ∧ (emailFirstMatch fullText = none → (extractPersonalInfo lines fullText).email = "")
    ∧ (phoneFirstMatch fullText = none → (extractPersonalInfo lines fullText).phone = "")
    ∧ (linkedinFirstMatch fullText = none →
        (extractPersonalInfo lines fullText).linkedin = "") := by
  refine ⟨rfl, rfl, rfl, rfl, rfl, rfl, ?_, ?_, ?_⟩ <;>
    intro h <;> simp [extractPersonalInfo, h, stripPhoneChars]

/-- Witness for the amended C5 at a concrete input. -/
theorem c5_personal_info_witness :
    (extractPersonalInfo [] "").email = ""
    ∧ (extractPersonalInfo [] "").phone = ""
    ∧ (extractPersonalInfo [] "").linkedin = "" :=
  ⟨(c5_personal_info [] "").2.2.2.2.2.2.1 rfl,
   (c5_personal_info [] "").2.2.2.2.2.2.2.1 rfl,
   (c5_personal_info [] "").2.2.2.2.2.2.2.2 rfl⟩

/-- C6: extraction of the empty string yields empty personal-info
fields and empty experience/skills/education lists (all present). -/
theorem c6_empty_text (gExp gEdu : Nat → String) :
    extractDataFromText gExp gEdu "" =
      { personal_info :=
          { name := "", email := "", phone := "", address := "", linkedin := "", website := "" }
        experience := []
        skills := []
        education := [] } :=
  rfl

/-- C9: inside the skills section, a content line (no skills header
keyword, no terminating keyword) contributes exactly one `SkillEntry`
per vocabulary term contained as a substring of the lower-cased line,
in vocabulary order, each with level `intermediate` and category
`Programming` exactly for terms containing `javascript` or `python`;
the spec's example produces entries including `javascript` and
`python`, and duplicate mentions across lines are not deduplicated. -/
theorem c9_skills_entries :
    (∀ (l : String) (rest : List String),
        skillKeywords.any (fun kw => strIncludes (jsToLower l) kw) = false →
        (strIncludes (jsToLower l) "experience" || strIncludes (jsToLower l) "education" ||
         strIncludes (jsToLower l) "projects") = false →
        skillsLoop true (l :: rest) =
          (commonSkills.filter (fun s => strIncludes (jsToLower l) s)).map skillOfTerm ++
            skillsLoop true rest)
    ∧ (∀ term, (skillOfTerm term).name = term ∧ (skillOfTerm term).level = "intermediate"
        ∧ (skillOfTerm term).category =
            (if strIncludes term "javascript" || strIncludes term "python" then "Programming"
             else "General"))
    ∧ extractSkills ["Skills", "JavaScript, Python, React"] "" =
        [{ name := "javascript", level := "intermediate", category := "Programming" },
         { name := "python", level := "intermediate", category := "Programming" },
         { name := "java", level := "intermediate", category := "General" },
         { name := "react", level := "intermediate", category := "General" }]
    ∧ extractSkills ["Skills", "python", "python"] "" =
        [{ name := "python", level := "intermediate", category := "Programming" },
         { name := "python", level := "intermediate", category := "Programming" }] := by
  refine ⟨?_, ?_, rfl, rfl⟩
  · intro l rest hhead hterm
    simp [skillsLoop, skillsOfLine, hhead, hterm]
  · intro term
    exact ⟨rfl, rfl, rfl⟩

/-- Witness for C9 at a concrete input. -/
theorem c9_skills_entries_witness :
    skillsLoop true ["JavaScript, Python, React"] =
      (commonSkills.filter
        (fun s => strIncludes (jsToLower "JavaScript, Python, React") s)).map skillOfTerm ++
        skillsLoop true [] :=
  c9_skills_entries.1 "JavaScript, Python, React" [] (by decide) (by decide)

/-- C10: in each of the three section scans, the target-section header
test runs first on every line: a line containing a header keyword of
the target section is skipped (with the in-section flag set), never
treated as data and never terminating the scan, even when it also
contains a termination keyword and whatever the current state is. -/
theorem c10_header_precedence :
    (∀ (g : Nat → String) (k : Nat) (inSec : Bool) (pending : Option PendingExperience)
        (l : String) (rest : List String),
        experienceKeywords.any (fun kw => strIncludes (jsToLower l) kw) = true →
        expLoop g k inSec pending (l :: rest) = expLoop g k true pending rest)
    ∧ (∀ (inSec : Bool) (l : String) (rest : List String),
        skillKeywords.any (fun kw => strIncludes (jsToLower l) kw) = true →
        skillsLoop inSec (l :: rest) = skillsLoop true rest)
    ∧ (∀ (g : Nat → String) (k : Nat) (inSec : Bool) (l : String) (rest : List String),
        educationKeywords.any (fun kw => strIncludes (jsToLower l) kw) = true →
        eduLoop g k inSec (l :: rest) = eduLoop g k true rest) := by
  refine ⟨?_, ?_, ?_⟩
  · intro g k inSec pending l rest h
    simp [expLoop, h]
  · intro inSec l rest h
    simp [skillsLoop, h]
  · intro g k inSec l rest h
    simp [eduLoop, h]

/-- Witness for C10 at concrete inputs: lines containing both the
target header keyword and a foreign termination keyword are skipped in
all three scans. -/
theorem c10_header_precedence_witness :
    expLoop sampleIds 0 true none ["experience in education", "X"] =
      expLoop sampleIds 0 true none ["X"]
    ∧ skillsLoop true ["my skills in education", "X"] = skillsLoop true ["X"]
    ∧ eduLoop sampleIds 0 true ["education vs experience", "X"] =
        eduLoop sampleIds 0 true ["X"] :=
  ⟨c10_header_precedence.1 sampleIds 0 true none "experience in education" ["X"] (by decide),
   c10_header_precedence.2.1 true "my skills in education" ["X"] (by decide),
   c10_header_precedence.2.2 sampleIds 0 true "education vs experience" ["X"] (by decide)⟩

/-- Helper: the experience scan result does not depend on the uuid
stream or its counter, except through the generated `id` fields. -/
theorem expLoop_erase_eq (g g' : Nat → String) (ls : List String) :
    ∀ k k' inSec pending,
      (expLoop g k inSec pending ls).map eraseExpId =
        (expLoop g' k' inSec pending ls).map eraseExpId := by
  induction ls with
  | nil =>
    intro k k' inSec pending
    cases pending <;> rfl
  | cons l rest ih =>
    intro k k' inSec pending
    by_cases h1 : experienceKeywords.any (fun kw => strIncludes (jsToLower l) kw)
    · simp only [expLoop, h1, if_true]
      exact ih k k' true pending
    · cases inSec with
      | false =>
        simp only [expLoop, h1]
        simpa using ih k k' false pending
      | true =>
        by_cases h2 : (strIncludes (jsToLower l) "education" || strIncludes (jsToLower l) "skills" ||
            strIncludes (jsToLower l) "projects")
        · simp only [expLoop, h1, h2]
          cases pending with
          | none => rfl
          | some p => rfl
        · by_cases h3 : 1 ≤ (yearTokens l).length
          · cases pending with
            | none =>
              simp [expLoop, h1, h2, h3]
              exact ih k k' true (some (mkPendingExp l))
            | some p =>
              simp [expLoop, h1, h2, h3, finalizeExp, eraseExpId]
              exact ih (k + 1) (k' + 1) true (some (mkPendingExp l))
          · simp [expLoop, h1, h2, h3]
            exact ih k k' true pending

/-- Helper: the education scan result does not depend on the uuid
stream or its counter, except through the generated `id` fields. -/
theorem eduLoop_erase_eq (g g' : Nat → String) (ls : List String) :
    ∀ k k' inSec,
      (eduLoop g k inSec ls).map eraseEduId = (eduLoop g' k' inSec ls).map eraseEduId := by
  induction ls with
  | nil => intro k k' inSec; rfl
  | cons l rest ih =>
    intro k k' inSec
    by_cases h1 : educationKeywords.any (fun kw => strIncludes (jsToLower l) kw)
    · simp only [eduLoop, h1, if_true]
      exact ih k k' true
    · cases inSec with
      | false =>
        simp only [eduLoop, h1]
        simpa using ih k k' false
      | true =>
        by_cases h2 : (strIncludes (jsToLower l) "experience" || strIncludes (jsToLower l) "skills" ||
            strIncludes (jsToLower l) "projects")
        · simp [eduLoop, h1, h2]
        · by_cases h3 : degreeKeywords.any (fun kw => strIncludes (jsToLower l) kw)
          · simp [eduLoop, h1, h2, h3, mkEducation, eraseEduId]
            exact ih (k + 1) (k' + 1) true
          · simp [eduLoop, h1, h2, h3]
            exact ih k k' true

/-- C8: extraction is deterministic modulo generated identifiers — for
any two uuid streams, the results on the same text agree on every field
of every entry once ids are erased. -/
theorem c8_deterministic_modulo_ids (g1 g1' g2 g2' : Nat → String) (text : String) :
    eraseIds (extractDataFromText g1 g1' text) = eraseIds (extractDataFromText g2 g2' text) := by
  simp only [extractDataFromText, eraseIds, extractExperience, extractEducation,
    ExtractedData.mk.injEq]
  exact ⟨trivial, expLoop_erase_eq g1 g2 (linesOf text) 0 0 false none, trivial,
    eduLoop_erase_eq g1' g2' (linesOf text) 0 0 false⟩

/-- Helper: every entry the experience scan emits has empty
position/description/achievements, provided the pending slot does
(which `mkPendingExp` guarantees). -/
theorem expLoop_fields (g : Nat → String) (ls : List String) :
    ∀ k inSec pending,
      (∀ p, pending = some p →
        p.position = "" ∧ p.description = "" ∧ p.achievements = ([] : List String)) →
      ∀ e ∈ expLoop g k inSec pending ls,
        e.position = "" ∧ e.description = "" ∧ e.achievements = ([] : List String) := by
  induction ls with
  | nil =>
    intro k inSec pending hp e he
    cases pending with
    | none => simp [expLoop, expFlush] at he
    | some p =>
      simp [expLoop, expFlush] at he
      subst he
      exact hp p rfl
  | cons l rest ih =>
    intro k inSec pending hp e he
    by_cases h1 : experienceKeywords.any (fun kw => strIncludes (jsToLower l) kw)
    · simp only [expLoop, h1, if_true] at he
      exact ih k true pending hp e he
    · cases inSec with
      | false =>
        simp only [expLoop, h1] at he
        exact ih k false pending hp e (by simpa using he)
      | true =>
        by_cases h2 : (strIncludes (jsToLower l) "education" || strIncludes (jsToLower l) "skills" ||
            strIncludes (jsToLower l) "projects")
        · simp only [expLoop, h1, h2] at he
          cases pending with
          | none => simp [expFlush] at he
          | some p =>
            simp [expFlush] at he
            subst he
            exact hp p rfl
        · by_cases h3 : 1 ≤ (yearTokens l).length
          · cases pending with
            | none =>
              simp [expLoop, h1, h2, h3] at he
              exact ih k true (some (mkPendingExp l))
                (fun p hp' => by cases hp'; exact ⟨rfl, rfl, rfl⟩) e he
            | some p =>
              simp [expLoop, h1, h2, h3] at he
              rcases he with he | he
              · subst he
                exact hp p rfl
              · exact ih (k + 1) true (some (mkPendingExp l))
                  (fun q hq => by cases hq; exact ⟨rfl, rfl, rfl⟩) e he
          · simp [expLoop, h1, h2, h3] at he
            exact ih k true pending hp e he

/-- Helper: every skill entry the skills scan emits has level
`intermediate`. -/
theorem skillsLoop_level (ls : List String) :
    ∀ inSec, ∀ s ∈ skillsLoop inSec ls, s.level = "intermediate" := by
  induction ls with
  | nil => intro inSec s hs; simp [skillsLoop] at hs
  | cons l rest ih =>
    intro inSec s hs
    by_cases h1 : skillKeywords.any (fun kw => strIncludes (jsToLower l) kw)
    · simp only [skillsLoop, h1, if_true] at hs
      exact ih true s hs
    · cases inSec with
      | false =>
        simp only [skillsLoop, h1] at hs
        exact ih false s (by simpa using hs)
      | true =>
        by_cases h2 : (strIncludes (jsToLower l) "experience" ||
            strIncludes (jsToLower l) "education" || strIncludes (jsToLower l) "projects")
        · simp [skillsLoop, h1, h2] at hs
        · simp [skillsLoop, h1, h2, skillsOfLine] at hs
          rcases hs with ⟨t, _, rfl⟩ | hs
          · rfl
          · exact ih true s hs

/-- Helper: every entry the education scan emits has empty institution
and field and no gpa. -/
theorem eduLoop_fields (g : Nat → String) (ls : List String) :
    ∀ k inSec, ∀ ed ∈ eduLoop g k inSec ls,
      ed.institution = "" ∧ ed.field = "" ∧ ed.gpa = none := by
  induction ls with
  | nil => intro k inSec ed hed; simp [eduLoop] at hed
  | cons l rest ih =>
    intro k inSec ed hed
    by_cases h1 : educationKeywords.any (fun kw => strIncludes (jsToLower l) kw)
    · simp only [eduLoop, h1, if_true] at hed
      exact ih k true ed hed
    · cases inSec with
      | false =>
        simp only [eduLoop, h1] at hed
        exact ih k false ed (by simpa using hed)
      | true =>
        by_cases h2 : (strIncludes (jsToLower l) "experience" || strIncludes (jsToLower l) "skills" ||
            strIncludes (jsToLower l) "projects")
        · simp [eduLoop, h1, h2] at hed
        · by_cases h3 : degreeKeywords.any (fun kw => strIncludes (jsToLower l) kw)
          · simp [eduLoop, h1, h2, h3] at hed
            rcases hed with hed | hed
            · subst hed
              exact ⟨rfl, rfl, rfl⟩
            · exact ih (k + 1) true ed hed
          · simp [eduLoop, h1, h2, h3] at hed
            exact ih k true ed hed

/-- Helper: with no experience header keyword on any line, the
experience scan never enters its section and returns the empty list. -/
theorem expLoop_stays_out (g : Nat → String) (ls : List String) :
    ∀ k, (∀ l ∈ ls, experienceKeywords.any (fun kw => strIncludes (jsToLower l) kw) = false) →
      expLoop g k false none ls = [] := by
  induction ls with
  | nil => intro k _; rfl
  | cons l rest ih =>
    intro k h
    have h1 : experienceKeywords.any (fun kw => strIncludes (jsToLower l) kw) = false :=
      h l (by simp)
    simp only [expLoop, h1]
    simpa using ih k (fun l' hl' => h l' (by simp [hl']))

/-- Helper: with no skills header keyword on any line, the skills scan
returns the empty list. -/
theorem skillsLoop_stays_out (ls : List String) :
    (∀ l ∈ ls, skillKeywords.any (fun kw => strIncludes (jsToLower l) kw) = false) →
      skillsLoop false ls = [] := by
  induction ls with
  | nil => intro _; rfl
  | cons l rest ih =>
    intro h
    have h1 : skillKeywords.any (fun kw => strIncludes (jsToLower l) kw) = false :=
      h l (by simp)
    simp only [skillsLoop, h1]
    simpa using ih (fun l' hl' => h l' (by simp [hl']))

/-- Helper: with no education header keyword on any line, the education
scan returns the empty list. -/
theorem eduLoop_stays_out (g : Nat → String) (ls : List String) :
    ∀ k, (∀ l ∈ ls, educationKeywords.any (fun kw => strIncludes (jsToLower l) kw) = false) →
      eduLoop g k false ls = [] := by
  induction ls with
  | nil => intro k _; rfl
  | cons l rest ih =>
    intro k h
    have h1 : educationKeywords.any (fun kw => strIncludes (jsToLower l) kw) = false :=
      h l (by simp)
    simp only [eduLoop, h1]
    simpa using ih k (fun l' hl' => h l' (by simp [hl']))

/-- C7: extraction is total and well-formed on every input: the result
always exists as a fully populated record (the embedding is a total
function), the fields no extractor populates carry their documented
defaults (empty strings, empty lists, absent gpa) rather than being
missing, and a text with no recognized section header yields empty
experience/skills/education lists rather than an error. -/
theorem c7_total_and_well_formed (g g' : Nat → String) (text : String) :
    ((extractDataFromText g g' text).personal_info.address = ""
      ∧ (extractDataFromText g g' text).personal_info.website = "")
    ∧ (∀ e ∈ (extractDataFromText g g' text).experience,
        e.position = "" ∧ e.description = "" ∧ e.achievements = ([] : List String))
    ∧ (∀ s ∈ (extractDataFromText g g' text).skills, s.level = "intermediate")
    ∧ (∀ ed ∈ (extractDataFromText g g' text).education,
        ed.institution = "" ∧ ed.field = "" ∧ ed.gpa = none)
    ∧ ((∀ l ∈ linesOf text, hasAnyHeader l = false) →
        (extractDataFromText g g' text).experience = []
        ∧ (extractDataFromText g g' text).skills = []
        ∧ (extractDataFromText g g' text).education = []) := by
  refine ⟨⟨rfl, rfl⟩, ?_, ?_, ?_, ?_⟩
  · exact fun e he =>
      expLoop_fields g (linesOf text) 0 false none (fun p hp => by cases hp) e he
  · exact fun s hs => skillsLoop_level (linesOf text) false s hs
  · exact fun ed hed => eduLoop_fields g' (linesOf text) 0 false ed hed
  · intro h
    have hexp : ∀ l ∈ linesOf text,
        experienceKeywords.any (fun kw => strIncludes (jsToLower l) kw) = false := by
      intro l hl
      have := h l hl
      simp [hasAnyHeader, List.any_append] at this
      exact by simpa using this.1
    have hskl : ∀ l ∈ linesOf text,
        skillKeywords.any (fun kw => strIncludes (jsToLower l) kw) = false := by
      intro l hl
      have := h l hl
      simp [hasAnyHeader, List.any_append] at this
      exact by simpa using this.2.1
    have hedu : ∀ l ∈ linesOf text,
        educationKeywords.any (fun kw => strIncludes (jsToLower l) kw) = false := by
      intro l hl
      have := h l hl
      simp [hasAnyHeader, List.any_append] at this
      exact by simpa using this.2.2
    exact ⟨expLoop_stays_out g (linesOf text) 0 hexp,
      skillsLoop_stays_out (linesOf text) hskl,
      eduLoop_stays_out g' (linesOf text) 0 hedu⟩

/-- Witness for C7 at a concrete input: garbled text without section
headers extracts to empty lists. -/
theorem c7_total_and_well_formed_witness :
    (extractDataFromText sampleIds sampleIds
        "Just some random text without proper structure").experience = []
    ∧ (extractDataFromText sampleIds sampleIds
        "Just some random text without proper structure").skills = []
    ∧ (extractDataFromText sampleIds sampleIds
        "Just some random text without proper structure").education = [] :=
  (c7_total_and_well_formed sampleIds sampleIds
    "Just some random text without proper structure").2.2.2.2 (by decide)
